import Mathlib

/-!
Verification of the efctl live terminal dashboard (cmd/env_dash.go and
pkg/dashboard/border.go), shallowly embedded in Lean 4.

Modelling conventions:
* Go machine integers are modelled as `Int`; Go's truncated integer division
  is `Int.tdiv`.
* A rendered terminal line is a `List Char`, its visible width being its
  length (the embedding covers unstyled text; `lipgloss` styling only adds
  colour escape codes, which carry zero visible width).
* Fallible external actions (process execution, HTTP calls, file reads) are
  modelled by `Option` results: `none` is a failed query.
* Go `map[string]string` values are modelled as association lists with
  overwrite-on-insert.
-/

namespace Efctl

/-! ## Log buffer (model.Update, LogMsg case)

Go source (cmd/env_dash.go):
  m.logs = append(m.logs, string(msg))
  if len(m.logs) > 500 { m.logs = m.logs[len(m.logs)-500:] }
-/

/-- One `LogMsg` transition of the dashboard model's log buffer. -/
def appendLog (logs : List String) (s : String) : List String :=
  let l := logs ++ [s]
  if l.length > 500 then l.drop (l.length - 500) else l

/-- The last `n` elements of a list (Go slice `l[len(l)-n:]`, clamped). -/
def takeLast (n : Nat) (xs : List α) : List α := xs.drop (xs.length - n)

theorem appendLog_eq_takeLast (xs : List String) (a : String) :
    appendLog xs a = takeLast 500 (xs ++ [a]) := by
  simp only [appendLog, takeLast]
  split_ifs with h
  · rfl
  · have h0 : (xs ++ [a]).length - 500 = 0 := by
      simp only [List.length_append, List.length_singleton] at h ⊢
      omega
    rw [h0, List.drop_zero]

theorem takeLast_append_takeLast (n : Nat) (xs : List α) (a : α) :
    takeLast n (takeLast n xs ++ [a]) = takeLast n (xs ++ [a]) := by
  unfold takeLast
  rcases Nat.eq_zero_or_pos n with hn | hn
  · subst hn
    simp [List.drop_append_eq_append_drop]
  · by_cases hk : xs.length ≤ n
    · have h1 : xs.length - n = 0 := by omega
      simp [h1]
    · have hz : (xs.drop (xs.length - n)).length = n := by
        rw [List.length_drop]; omega
      have hlen1 : (xs.drop (xs.length - n) ++ [a]).length - n = 1 := by
        simp only [List.length_append, List.length_singleton, hz]
        omega
      have hlen2 : (xs ++ [a]).length - n = xs.length + 1 - n := by
        simp only [List.length_append, List.length_singleton]
      rw [hlen1, hlen2, List.drop_append_eq_append_drop,
        List.drop_append_eq_append_drop]
      have e1 : xs.length + 1 - n - xs.length = 0 := by omega
      have e2 : (1 : Nat) - (xs.drop (xs.length - n)).length = 0 := by
        rw [hz]; omega
      rw [e1, e2]
      simp only [List.drop_zero]
      rw [List.drop_drop]
      have e3 : xs.length - n + 1 = xs.length + 1 - n := by omega
      rw [e3]

/-- **C2.** For every sequence of log-line events applied to the dashboard
model (whose log buffer starts empty), the resulting log buffer is exactly
the most recent `min 500 n` lines in arrival order, so its length never
exceeds the fixed cap of 500 and the oldest lines are dropped first; since
the statement holds for every sequence, it holds after each transition
(each intermediate buffer is the fold over a prefix). -/
theorem logBuffer_cap_invariant (msgs : List String) :
    msgs.foldl appendLog [] = takeLast 500 msgs ∧
    (msgs.foldl appendLog []).length = min 500 msgs.length ∧
    (msgs.foldl appendLog []).length ≤ 500 := by
  have main : ∀ ms : List String, ms.foldl appendLog [] = takeLast 500 ms := by
    intro ms
    induction ms using List.reverseRecOn with
    | nil => simp [takeLast]
    | append_singleton l a ih =>
      rw [List.foldl_append]
      simp only [List.foldl_cons, List.foldl_nil]
      rw [ih, appendLog_eq_takeLast, takeLast_append_takeLast]
  refine ⟨main msgs, ?_, ?_⟩
  · rw [main msgs]
    unfold takeLast
    simp
    omega
  · rw [main msgs]
    unfold takeLast
    simp
    omega

/-! ## Age formatting (formatAge / dashboard.FormatAge)

Go source:
  func formatAge(d time.Duration) string {
    switch {
    case d < time.Minute:   return fmt.Sprintf("%ds", int(d.Seconds()))
    case d < time.Hour:     return fmt.Sprintf("%dm", int(d.Minutes()))
    case d < 24*time.Hour:  return fmt.Sprintf("%dh", int(d.Hours()))
    default:                return fmt.Sprintf("%dd", int(d.Hours()/24))
    }
  }
`d` is a count of nanoseconds; the float conversions truncate toward zero,
which for the exact quotients involved agrees with `Int.tdiv`. -/

/-- `formatAge` over a duration in nanoseconds. -/
def formatAge (d : Int) : String :=
  if d < 60 * 1000000000 then
    toString (Int.tdiv d 1000000000) ++ "s"
  else if d < 3600 * 1000000000 then
    toString (Int.tdiv d (60 * 1000000000)) ++ "m"
  else if d < 86400 * 1000000000 then
    toString (Int.tdiv d (3600 * 1000000000)) ++ "h"
  else
    toString (Int.tdiv d (86400 * 1000000000)) ++ "d"

/-- A whole number of seconds as a Go `time.Duration` (nanoseconds). -/
def seconds (s : Int) : Int := s * 1000000000

/-- **C8.** The age-formatting function maps 45 s to "45s", 90 s to "1m",
3700 s to "1h" and 90000 s to "1d"; at exactly 60 s, 3600 s and 86400 s it
rounds to the next unit, returning "1m", "1h" and "1d" respectively. -/
theorem formatAge_values :
    formatAge (seconds 45) = "45s" ∧
    formatAge (seconds 90) = "1m" ∧
    formatAge (seconds 3700) = "1h" ∧
    formatAge (seconds 90000) = "1d" ∧
    formatAge (seconds 60) = "1m" ∧
    formatAge (seconds 3600) = "1h" ∧
    formatAge (seconds 86400) = "1d" := by
  refine ⟨?_, ?_, ?_, ?_, ?_, ?_, ?_⟩ <;> rfl

/-! ## The dashboard data model (cmd/env_dash.go: containerStat, recentTx,
chainStat, worldEvent, StatsMsg, model) -/

structure containerStat where
  Status : String
  CPU : String
  Mem : String
  deriving Repr, DecidableEq

structure recentTx where
  Digest : String
  Status : String
  Kind : String
  Age : String
  Sender : String
  GasUsed : String
  deriving Repr, DecidableEq

structure chainStat where
  Checkpoint : String
  Epoch : String
  TxCount : String
  RecentTxs : List recentTx
  deriving Repr, DecidableEq

structure worldEvent where
  EventType : String
  Module : String
  Sender : String
  Age : String
  ParsedJSON : List (String × String)
  deriving Repr, DecidableEq

structure StatsMsg where
  Sui : containerStat
  Pg : containerStat
  Fe : containerStat
  Chain : chainStat
  Objects : List String
  Admin : String
  EnvVars : List (String × String)
  WorldObjs : List (String × String)
  Addresses : List (String × String)
  WorldPkgID : String
  Events : List worldEvent
  deriving Repr, DecidableEq

/-- The dashboard model (Go struct `model`); `startTime` is opaque
(an instant), terminal sizes are Go ints. -/
structure Model where
  engine : String
  workspace : String
  width : Int
  height : Int
  startTime : Int
  suiStat : containerStat
  pgStat : containerStat
  feStat : containerStat
  chainInfo : chainStat
  recentTxs : List recentTx
  objectTrackers : List String
  adminAddr : String
  envVars : List (String × String)
  worldObjs : List (String × String)
  addresses : List (String × String)
  worldPkgID : String
  logs : List String
  logScroll : Int
  graphqlOn : Bool
  frontendOn : Bool
  worldEvents : List worldEvent
  deriving Repr, DecidableEq

/-- Go `strings.Contains content pat`: `pat` occurs as a contiguous
substring of `content`. -/
def containsStr (content pat : String) : Bool :=
  decide (pat.toList <:+: content.toList)

/-! ## applyStats (cmd/env_dash.go lines 1944-1967)

`override` is the contents of
`<workspace>/builder-scaffold/docker/docker-compose.override.yml`
(`none` when the read fails). -/

/-- `model.applyStats`: copy the snapshot fields into the model and refresh
the two feature flags from the docker-compose override file. -/
def applyStats (m : Model) (msg : StatsMsg) (override : Option String) : Model :=
  { m with
    suiStat := msg.Sui
    pgStat := msg.Pg
    feStat := msg.Fe
    chainInfo := msg.Chain
    recentTxs := msg.Chain.RecentTxs
    objectTrackers := msg.Objects
    adminAddr := msg.Admin
    envVars := msg.EnvVars
    worldObjs := msg.WorldObjs
    addresses := msg.Addresses
    worldPkgID := msg.WorldPkgID
    worldEvents := msg.Events
    graphqlOn :=
      match override with
      | some content =>
          containsStr content "postgres:" || containsStr content "SUI_GRAPHQL_ENABLED"
      | none => false
    frontendOn :=
      match override with
      | some content => containsStr content "frontend:"
      | none => false }

/-- **C9.** Applying a snapshot event (`applyStats`) updates exactly the
snapshot-derived fields and the two feature flags, and leaves the log
buffer, scroll offset, terminal width and height, engine, workspace and
start time unchanged — so a snapshot arriving while the user is scrolled
back never moves the log viewport. -/
theorem applyStats_frame (m : Model) (msg : StatsMsg) (override : Option String) :
    (applyStats m msg override).logs = m.logs ∧
    (applyStats m msg override).logScroll = m.logScroll ∧
    (applyStats m msg override).width = m.width ∧
    (applyStats m msg override).height = m.height ∧
    (applyStats m msg override).engine = m.engine ∧
    (applyStats m msg override).workspace = m.workspace ∧
    (applyStats m msg override).startTime = m.startTime ∧
    (applyStats m msg override).suiStat = msg.Sui ∧
    (applyStats m msg override).pgStat = msg.Pg ∧
    (applyStats m msg override).feStat = msg.Fe ∧
    (applyStats m msg override).chainInfo = msg.Chain ∧
    (applyStats m msg override).recentTxs = msg.Chain.RecentTxs ∧
    (applyStats m msg override).objectTrackers = msg.Objects ∧
    (applyStats m msg override).adminAddr = msg.Admin ∧
    (applyStats m msg override).envVars = msg.EnvVars ∧
    (applyStats m msg override).worldObjs = msg.WorldObjs ∧
    (applyStats m msg override).addresses = msg.Addresses ∧
    (applyStats m msg override).worldPkgID = msg.WorldPkgID ∧
    (applyStats m msg override).worldEvents = msg.Events := by
  repeat' constructor

/-! ## Feature-enable key handlers (handleEnableGraphQL, handleEnableFrontend)

The issued external command is modelled as its full argv list
(`some argv`); `none` models the `return m, nil` path. -/

/-- `model.handleEnableGraphQL`: enable GraphQL only when it is off. -/
def handleEnableGraphQL (m : Model) : Model × Option (List String) :=
  if !m.graphqlOn then
    let args := ["env", "up", "-w", m.workspace, "--with-graphql"]
    let args := if m.frontendOn then args ++ ["--with-frontend"] else args
    (m, some ("efctl" :: args))
  else
    (m, none)

/-- `model.handleEnableFrontend`: enable the frontend dApp only when it is off. -/
def handleEnableFrontend (m : Model) : Model × Option (List String) :=
  if !m.frontendOn then
    let args := ["env", "up", "-w", m.workspace, "--with-frontend"]
    let args := if m.graphqlOn then args ++ ["--with-graphql"] else args
    (m, some ("efctl" :: args))
  else
    (m, none)

/-- **C10.** Pressing the enable-GraphQL key when the GraphQL flag is already
on (or enable-frontend when the frontend flag is on) is a no-op: the model is
returned unchanged and no external command is issued; the corresponding
`efctl env up` enable command is issued only when the flag is off. -/
theorem enableHandlers_noop_when_on (m : Model) :
    (m.graphqlOn = true → handleEnableGraphQL m = (m, none)) ∧
    (m.frontendOn = true → handleEnableFrontend m = (m, none)) ∧
    (m.graphqlOn = false →
      (handleEnableGraphQL m).1 = m ∧
      (handleEnableGraphQL m).2 =
        some (["efctl", "env", "up", "-w", m.workspace, "--with-graphql"] ++
          (if m.frontendOn then ["--with-frontend"] else []))) ∧
    (m.frontendOn = false →
      (handleEnableFrontend m).1 = m ∧
      (handleEnableFrontend m).2 =
        some (["efctl", "env", "up", "-w", m.workspace, "--with-frontend"] ++
          (if m.graphqlOn then ["--with-graphql"] else []))) := by
  refine ⟨fun h => ?_, fun h => ?_, fun h => ?_, fun h => ?_⟩ <;>
    cases hg : m.graphqlOn <;> cases hf : m.frontendOn <;>
      simp_all [handleEnableGraphQL, handleEnableFrontend]

/-! ## Restart (handleRestart + model.Update, restartUpMsg case)

`tea.ExecProcess cmd cb` runs `cmd` asynchronously and later delivers
`cb err` to `Update`; an execution environment is modelled as
`exec : List String → Option String` mapping an argv list to `none`
(success) or `some e` (failure with error text `e`).  `restartTrace`
composes `handleRestart`'s callback with the `restartUpMsg` case of
`model.Update`, returning the commands issued in order together with the
log-style messages emitted. -/

/-- The stop command issued first by `model.handleRestart`. -/
def restartDownCmd (m : Model) : List String :=
  ["efctl", "env", "down", "-w", m.workspace]

/-- The start command of `model.handleRestart`: `efctl env up` with
`--with-graphql` / `--with-frontend` appended when currently enabled. -/
def restartUpCmd (m : Model) : List String :=
  let args := ["env", "up", "-w", m.workspace]
  let args := if m.graphqlOn then args ++ ["--with-graphql"] else args
  let args := if m.frontendOn then args ++ ["--with-frontend"] else args
  "efctl" :: args

/-- The full restart chain: run `env down`; on failure emit the down error
message and stop; on success deliver `restartUpMsg`, whose `Update` case
runs the up command and emits its result message. -/
def restartTrace (m : Model) (exec : List String → Option String) :
    List (List String) × List String :=
  match exec (restartDownCmd m) with
  | some e => ([restartDownCmd m], ["Error during restart (down): " ++ e])
  | none =>
    match exec (restartUpCmd m) with
    | some e =>
        ([restartDownCmd m, restartUpCmd m], ["Error during restart (up): " ++ e])
    | none =>
        ([restartDownCmd m, restartUpCmd m], ["Environment restarted successfully."])

/-- **C1.** On restart the stop command `efctl env down` is issued first; if
it fails, the only emitted event is the log-style error message and the
start command is never issued; only upon its success is `efctl env up`
issued, with `--with-graphql` and/or `--with-frontend` appended exactly when
the corresponding feature flag is enabled. -/
theorem restart_stop_before_start (m : Model) (exec : List String → Option String) :
    (restartTrace m exec).1.head? = some (restartDownCmd m) ∧
    (∀ e, exec (restartDownCmd m) = some e →
      restartTrace m exec =
        ([restartDownCmd m], ["Error during restart (down): " ++ e])) ∧
    (exec (restartDownCmd m) = none →
      (restartTrace m exec).1 = [restartDownCmd m, restartUpCmd m]) ∧
    restartUpCmd m =
      ["efctl", "env", "up", "-w", m.workspace] ++
        (if m.graphqlOn then ["--with-graphql"] else []) ++
        (if m.frontendOn then ["--with-frontend"] else []) := by
  refine ⟨?_, ?_, ?_, ?_⟩
  · unfold restartTrace
    cases exec (restartDownCmd m) with
    | some e => rfl
    | none => cases exec (restartUpCmd m) <;> rfl
  · intro e he
    unfold restartTrace
    rw [he]
  · intro hn
    unfold restartTrace
    rw [hn]
    cases exec (restartUpCmd m) <;> rfl
  · cases hg : m.graphqlOn <;> cases hf : m.frontendOn <;>
      simp [restartUpCmd, hg, hf]

/-- A concrete dashboard model used to witness hypothesis-bearing theorems. -/
def demoModel : Model :=
  { engine := "docker"
    workspace := "/ws"
    width := 100
    height := 40
    startTime := 0
    suiStat := ⟨"Checking...", "-", "-"⟩
    pgStat := ⟨"Checking...", "-", "-"⟩
    feStat := ⟨"Checking...", "-", "-"⟩
    chainInfo := ⟨"Offline", "-", "-", []⟩
    recentTxs := []
    objectTrackers := []
    adminAddr := "Checking..."
    envVars := []
    worldObjs := []
    addresses := []
    worldPkgID := ""
    logs := []
    logScroll := 0
    graphqlOn := false
    frontendOn := false
    worldEvents := [] }

/-- `demoModel` with both feature flags enabled. -/
def demoModelOn : Model :=
  { demoModel with graphqlOn := true, frontendOn := true }

/-- Witness for C1: with an executor that fails every command, the restart
trace issues only the stop command and emits the down error message. -/
theorem restart_stop_before_start_witness :
    restartTrace demoModel (fun _ => some "boom") =
      ([restartDownCmd demoModel], ["Error during restart (down): boom"]) :=
  (restart_stop_before_start demoModel (fun _ => some "boom")).2.1 "boom" rfl

/-- Witness for C10: with GraphQL already enabled, the enable-GraphQL key is
a no-op. -/
theorem enableHandlers_noop_when_on_witness :
    handleEnableGraphQL demoModelOn = (demoModelOn, none) :=
  (enableHandlers_noop_when_on demoModelOn).1 rfl

/-! ## Scrolling (handleKeyMsg, handleMouseScroll, clampScroll,
logViewportRows, maxLogScroll) -/

/-- `logViewportRows`: number of log lines visible in the log panel.  Go
integer division truncates toward zero (`Int.tdiv`).  The `numEvents`
parameter is unused by the source body. -/
def logViewportRows (height numEvents : Int) : Int :=
  let headerH : Int := 1
  let available := height - headerH
  let topRows := Int.tdiv (available * 30) 100
  let topRows := if topRows < 8 then 8 else topRows
  let botRows := available - topRows - 3
  if botRows < 3 then 3 else botRows

/-- `model.maxLogScroll`: largest scroll offset so the viewport never goes
past the first log line. -/
def maxLogScroll (m : Model) : Int :=
  let viewport := logViewportRows m.height (m.worldEvents.length : Int)
  let mx := (m.logs.length : Int) - viewport
  if mx < 0 then 0 else mx

/-- `model.clampScroll`: clamp `logScroll` into `[0, maxLogScroll]`. -/
def clampScroll (m : Model) : Model :=
  let m := if m.logScroll > maxLogScroll m then { m with logScroll := maxLogScroll m } else m
  if m.logScroll < 0 then { m with logScroll := 0 } else m

/-- The scroll commands of the dashboard: arrow keys (with vi aliases),
home/end, page up/down, and the mouse wheel. -/
inductive ScrollCmd where
  | keyUp
  | keyDown
  | keyHome
  | keyEnd
  | keyPgUp
  | keyPgDown
  | wheelUp
  | wheelDown
  deriving Repr, DecidableEq

/-- One scroll transition: the corresponding cases of `handleKeyMsg` and of
`handleMouseScroll` (the wheel cases clamp only the bound they can cross,
exactly as the source does). -/
def applyScroll (m : Model) : ScrollCmd → Model
  | .keyUp => clampScroll { m with logScroll := m.logScroll + 1 }
  | .keyDown => clampScroll { m with logScroll := m.logScroll - 1 }
  | .keyHome => { m with logScroll := maxLogScroll m }
  | .keyEnd => { m with logScroll := 0 }
  | .keyPgUp => clampScroll { m with logScroll := m.logScroll + 20 }
  | .keyPgDown => clampScroll { m with logScroll := m.logScroll - 20 }
  | .wheelUp =>
      let m := { m with logScroll := m.logScroll + 3 }
      if m.logScroll > maxLogScroll m then { m with logScroll := maxLogScroll m } else m
  | .wheelDown =>
      let m := { m with logScroll := m.logScroll - 3 }
      if m.logScroll < 0 then { m with logScroll := 0 } else m

theorem maxLogScroll_nonneg (m : Model) : 0 ≤ maxLogScroll m := by
  simp only [maxLogScroll]
  split_ifs with h <;> omega

theorem maxLogScroll_set_scroll (m : Model) (s : Int) :
    maxLogScroll { m with logScroll := s } = maxLogScroll m := rfl

theorem applyScroll_maxLogScroll (m : Model) (c : ScrollCmd) :
    maxLogScroll (applyScroll m c) = maxLogScroll m := by
  cases c <;>
    simp only [applyScroll, clampScroll] <;>
    first
      | rfl
      | (split_ifs <;> rfl)

theorem applyScroll_invariant (m : Model) (c : ScrollCmd)
    (h0 : 0 ≤ m.logScroll) (h1 : m.logScroll ≤ maxLogScroll m) :
    0 ≤ (applyScroll m c).logScroll ∧
    (applyScroll m c).logScroll ≤ maxLogScroll (applyScroll m c) := by
  have hM := maxLogScroll_nonneg m
  rw [applyScroll_maxLogScroll]
  cases c <;>
    simp only [applyScroll, clampScroll, maxLogScroll_set_scroll] <;>
    (try split_ifs) <;> simp_all <;> omega

/-- **C3.** After any sequence of scroll commands (up/down/page-up/page-down/
home/end keys and mouse wheel events) applied to a model whose offset is in
range — in particular the initial offset 0 — with the log buffer and
terminal height fixed, the scroll offset satisfies
`0 ≤ offset ≤ max 0 (length logs - viewport)`, the bound computed by
`maxLogScroll` from `logViewportRows`. -/
theorem scroll_offset_invariant (m : Model) (cmds : List ScrollCmd)
    (h0 : 0 ≤ m.logScroll) (h1 : m.logScroll ≤ maxLogScroll m) :
    0 ≤ (cmds.foldl applyScroll m).logScroll ∧
    (cmds.foldl applyScroll m).logScroll ≤ maxLogScroll (cmds.foldl applyScroll m) := by
  induction cmds generalizing m with
  | nil => exact ⟨h0, h1⟩
  | cons c rest ih =>
    have step := applyScroll_invariant m c h0 h1
    exact ih (applyScroll m c) step.1 step.2

/-- Witness for C3: from the initial model (offset 0), a concrete command
sequence keeps the offset within bounds. -/
theorem scroll_offset_invariant_witness :
    0 ≤ ((([ScrollCmd.wheelUp, ScrollCmd.keyPgUp, ScrollCmd.keyDown]).foldl
        applyScroll demoModel).logScroll) ∧
    ((([ScrollCmd.wheelUp, ScrollCmd.keyPgUp, ScrollCmd.keyDown]).foldl
        applyScroll demoModel).logScroll) ≤
      maxLogScroll (([ScrollCmd.wheelUp, ScrollCmd.keyPgUp, ScrollCmd.keyDown]).foldl
        applyScroll demoModel) :=
  scroll_offset_invariant demoModel [ScrollCmd.wheelUp, ScrollCmd.keyPgUp, ScrollCmd.keyDown]
    (by decide) (by decide)

/-! ## Panel line padding (padLines / dashboard.PadLines)

A rendered line is a `List Char`; its visible width is its length.
`renderToLines` delegates wholly to `lipgloss` (third-party), whose
`Padding(0,1).Width(innerW)` contract is that every produced line has
visible width at most `innerW`; that contract is the hypothesis of the
theorem below. -/

/-- `padLines`: truncate to at most `targetRows` rows, append blank rows up
to `targetRows`, and pad every short line with spaces to width `innerW`. -/
def padLines (lines : List (List Char)) (targetRows innerW : Nat) :
    List (List Char) :=
  let l1 := lines.take targetRows
  let l2 := l1 ++ List.replicate (targetRows - l1.length) (List.replicate innerW ' ')
  l2.map fun line =>
    if line.length < innerW then line ++ List.replicate (innerW - line.length) ' '
    else line

/-- **C4.** For every list of rendered panel lines (each of visible width at
most `innerW`, the `renderToLines` output contract), every `targetRows` and
every `innerW`, `padLines` returns exactly `targetRows` lines, each of
visible width exactly `innerW`: short lines are padded with spaces and
excess rows are truncated. -/
theorem padLines_exact (lines : List (List Char)) (targetRows innerW : Nat)
    (h : ∀ l ∈ lines, l.length ≤ innerW) :
    (padLines lines targetRows innerW).length = targetRows ∧
    ∀ l ∈ padLines lines targetRows innerW, l.length = innerW := by
  constructor
  · simp only [padLines, List.length_map, List.length_append,
      List.length_replicate, List.length_take]
    omega
  · intro l hl
    simp only [padLines, List.mem_map] at hl
    obtain ⟨x, hx, hxl⟩ := hl
    have hxw : x.length ≤ innerW := by
      rcases List.mem_append.mp hx with hx1 | hx2
      · exact h x (List.mem_of_mem_take hx1)
      · rw [List.eq_of_mem_replicate hx2]
        simp
    subst hxl
    split_ifs with hlt
    · simp
      omega
    · omega

/-- Witness for C4: one short line, two target rows, width three. -/
theorem padLines_exact_witness :
    (padLines [['a']] 2 3).length = 2 ∧
    ∀ l ∈ padLines [['a']] 2 3, l.length = 3 :=
  padLines_exact [['a']] 2 3 (by decide)

/-! ## Border builders (cmd/env_dash.go buildTopBorder etc. and
pkg/dashboard/border.go BuildTopBorder etc.; the two copies are textually
identical up to exported names, so one embedding covers both)

`lipgloss` style rendering adds only colour escape codes, so `borderStr`
and the label/gray styles are identity on visible characters.  Widths are
Go ints; dash fills of count `n` are `n.toNat` dashes after the source's
explicit clamping. -/

/-- The source's clamping pattern `if d < 0 { d = 0 }` applied to every
dash count before it reaches `strings.Repeat`. -/
def clampNonneg (n : Int) : Int := if n < 0 then 0 else n

/-- A horizontal dash fill of the given (already clamped) length. -/
def dashes (n : Int) : List Char := List.replicate n.toNat '─'

/-- `buildTopBorder`: `╭─ LeftTitle ──┬─ RightTitle ──╮`. -/
def buildTopBorder (leftW rightW : Int) (leftTitle rightTitle : List Char) :
    List Char :=
  let ld := clampNonneg (leftW - 3 - (leftTitle.length : Int))
  let rd := clampNonneg (rightW - 3 - (rightTitle.length : Int))
  ['╭', '─'] ++ [' '] ++ leftTitle ++ [' '] ++ dashes ld ++ ['┬', '─'] ++
    [' '] ++ rightTitle ++ [' '] ++ dashes rd ++ ['╮']

/-- `buildLeftMidBorder`: `├─ Title ──────────┤`. -/
def buildLeftMidBorder (leftW : Int) (title : List Char) : List Char :=
  let d := clampNonneg (leftW - 3 - (title.length : Int))
  ['├', '─'] ++ [' '] ++ title ++ [' '] ++ dashes d ++ ['┤']

/-- The total dash budget of `buildMiddleBorder`. -/
def middleTotalDashes (totalW : Int) (tw : Int) : Int :=
  clampNonneg (totalW - 5 - tw)

/-- The junction position of `buildMiddleBorder` (not clamped in source). -/
def middleJunction (leftW : Int) (tw : Int) : Int := leftW - 3 - tw

/-- `buildMiddleBorder`: `├─ Title ──┴────────┤`, placing `┴` where the top
section's vertical divider was when that position falls inside the fill. -/
def buildMiddleBorder (totalW leftW : Int) (title : List Char) : List Char :=
  let totalDashes := middleTotalDashes totalW (title.length : Int)
  let junction := middleJunction leftW (title.length : Int)
  if 0 ≤ junction ∧ junction < totalDashes then
    ['├', '─'] ++ [' '] ++ title ++ [' '] ++ dashes junction ++ ['┴'] ++
      dashes (totalDashes - junction - 1) ++ ['┤']
  else
    ['├', '─'] ++ [' '] ++ title ++ [' '] ++ dashes totalDashes ++ ['┤']

/-- `buildBottomBorder`: `╰─ footer ──────╯`. -/
def buildBottomBorder (totalW : Int) (footer : List Char) : List Char :=
  let d := clampNonneg (totalW - 5 - (footer.length : Int))
  ['╰', '─'] ++ [' '] ++ footer ++ [' '] ++ dashes d ++ ['╯']

/-- `buildFullBorder`: `├─ Title ──────────────┤` (full width, no junction). -/
def buildFullBorder (totalW : Int) (title : List Char) : List Char :=
  let d := clampNonneg (totalW - 5 - (title.length : Int))
  ['├', '─'] ++ [' '] ++ title ++ [' '] ++ dashes d ++ ['┤']

/-- `buildSplitMiddleBorder`: `├─ LeftTitle ──┼─ RightTitle ──┤`. -/
def buildSplitMiddleBorder (leftW rightW : Int) (leftTitle rightTitle : List Char) :
    List Char :=
  let ld := clampNonneg (leftW - 3 - (leftTitle.length : Int))
  let rd := clampNonneg (rightW - 3 - (rightTitle.length : Int))
  ['├', '─'] ++ [' '] ++ leftTitle ++ [' '] ++ dashes ld ++ ['┼', '─'] ++
    [' '] ++ rightTitle ++ [' '] ++ dashes rd ++ ['┤']

/-- `buildBottomBorderWithJunction`: `╰─ footer ──┴──────╯`. -/
def buildBottomBorderWithJunction (totalW leftW : Int) (footer : List Char) :
    List Char :=
  let totalDashes := middleTotalDashes totalW (footer.length : Int)
  let junction := middleJunction leftW (footer.length : Int)
  if 0 ≤ junction ∧ junction < totalDashes then
    ['╰', '─'] ++ [' '] ++ footer ++ [' '] ++ dashes junction ++ ['┴'] ++
      dashes (totalDashes - junction - 1) ++ ['╯']
  else
    ['╰', '─'] ++ [' '] ++ footer ++ [' '] ++ dashes totalDashes ++ ['╯']

theorem getLast?_append_singleton (l : List α) (a : α) :
    (l ++ [a]).getLast? = some a :=
  List.getLast?_append_cons l a []

/-- **C5.** Every border-building function, for every non-negative width and
every title/footer (including ones wider than the available space), is total,
clamps every dash count to at least 0 (and in the junction branches
`totalDashes - junction - 1 ≥ 0`), and returns a line that begins with its
opening glyph (`╭` or `├` or `╰`) and ends with its matching closing glyph
(`╮`, `┤` or `╯`). -/
theorem borders_wellformed :
    (∀ n : Int, 0 ≤ clampNonneg n) ∧
    (∀ totalW leftW tw : Int,
      0 ≤ middleJunction leftW tw →
      middleJunction leftW tw < middleTotalDashes totalW tw →
      0 ≤ middleTotalDashes totalW tw - middleJunction leftW tw - 1) ∧
    (∀ (leftW rightW : Int) (lt rt : List Char), 0 ≤ leftW → 0 ≤ rightW →
      (buildTopBorder leftW rightW lt rt).head? = some '╭' ∧
      (buildTopBorder leftW rightW lt rt).getLast? = some '╮') ∧
    (∀ (leftW : Int) (t : List Char), 0 ≤ leftW →
      (buildLeftMidBorder leftW t).head? = some '├' ∧
      (buildLeftMidBorder leftW t).getLast? = some '┤') ∧
    (∀ (totalW leftW : Int) (t : List Char), 0 ≤ totalW → 0 ≤ leftW →
      (buildMiddleBorder totalW leftW t).head? = some '├' ∧
      (buildMiddleBorder totalW leftW t).getLast? = some '┤') ∧
    (∀ (totalW : Int) (f : List Char), 0 ≤ totalW →
      (buildBottomBorder totalW f).head? = some '╰' ∧
      (buildBottomBorder totalW f).getLast? = some '╯') ∧
    (∀ (totalW : Int) (t : List Char), 0 ≤ totalW →
      (buildFullBorder totalW t).head? = some '├' ∧
      (buildFullBorder totalW t).getLast? = some '┤') ∧
    (∀ (leftW rightW : Int) (lt rt : List Char), 0 ≤ leftW → 0 ≤ rightW →
      (buildSplitMiddleBorder leftW rightW lt rt).head? = some '├' ∧
      (buildSplitMiddleBorder leftW rightW lt rt).getLast? = some '┤') ∧
    (∀ (totalW leftW : Int) (f : List Char), 0 ≤ totalW → 0 ≤ leftW →
      (buildBottomBorderWithJunction totalW leftW f).head? = some '╰' ∧
      (buildBottomBorderWithJunction totalW leftW f).getLast? = some '╯') := by
  refine ⟨?_, ?_, ?_, ?_, ?_, ?_, ?_, ?_, ?_⟩
  · intro n
    unfold clampNonneg
    split_ifs <;> omega
  · intro totalW leftW tw h1 h2
    omega
  · intro leftW rightW lt rt _ _
    exact ⟨rfl, getLast?_append_singleton _ '╮'⟩
  · intro leftW t _
    exact ⟨rfl, getLast?_append_singleton _ '┤'⟩
  · intro totalW leftW t _ _
    constructor
    · simp only [buildMiddleBorder]
      split_ifs <;> rfl
    · simp only [buildMiddleBorder]
      split_ifs <;> exact getLast?_append_singleton _ '┤'
  · intro totalW f _
    exact ⟨rfl, getLast?_append_singleton _ '╯'⟩
  · intro totalW t _
    exact ⟨rfl, getLast?_append_singleton _ '┤'⟩
  · intro leftW rightW lt rt _ _
    exact ⟨rfl, getLast?_append_singleton _ '┤'⟩
  · intro totalW leftW f _ _
    constructor
    · simp only [buildBottomBorderWithJunction]
      split_ifs <;> rfl
    · simp only [buildBottomBorderWithJunction]
      split_ifs <;> exact getLast?_append_singleton _ '╯'

/-- Witness for C5: the top border at concrete widths with a title wider
than the available space still opens with `╭` and closes with `╮`. -/
theorem borders_wellformed_witness :
    (buildTopBorder 2 2 ['T', 'i', 't', 'l', 'e'] ['R']).head? = some '╭' ∧
    (buildTopBorder 2 2 ['T', 'i', 't', 'l', 'e'] ['R']).getLast? = some '╮' :=
  borders_wellformed.2.2.1 2 2 ['T', 'i', 't', 'l', 'e'] ['R']
    (by decide) (by decide)

/-! ## Logo compositor (truncateToWidth + overlayLogo /
dashboard.TruncateToWidth + dashboard.OverlayLogo)

The decorative logo (`efctlLogoLines`, a fixed pterm BigText block) is a
parameter: a non-empty list of lines sharing the width of the first line
(the width the source reads as `lipgloss.Width(efctlLogoLines[0])`). -/

/-- The byte loop of `truncateToWidth`: write runes until the accumulated
visible width `w` reaches `maxW`. -/
def truncLoop (maxW : Nat) : List Char → Nat → List Char
  | [], _ => []
  | c :: rest, w => if w + 1 ≥ maxW then [c] else c :: truncLoop maxW rest (w + 1)

/-- `truncateToWidth`: truncate a line to at most `maxW` visible characters,
padding back up to `maxW` if truncation overshot short. -/
def truncateToWidth (s : List Char) (maxW : Nat) : List Char :=
  if s.length ≤ maxW then s
  else
    let r := truncLoop maxW s 0
    if r.length < maxW then r ++ List.replicate (maxW - r.length) ' ' else r

theorem truncLoop_eq_take (maxW : Nat) (s : List Char) (w : Nat) (h : w < maxW) :
    truncLoop maxW s w = s.take (maxW - w) := by
  induction s generalizing w with
  | nil => simp [truncLoop]
  | cons c rest ih =>
    simp only [truncLoop]
    split_ifs with hw
    · have : maxW - w = 1 := by omega
      rw [this]
      rfl
    · have hlt : w + 1 < maxW := by omega
      rw [ih (w + 1) hlt]
      have : maxW - w = (maxW - (w + 1)) + 1 := by omega
      rw [this, List.take_succ_cons]

theorem truncateToWidth_length (s : List Char) (maxW : Nat)
    (h1 : 1 ≤ maxW) (h2 : maxW ≤ s.length) :
    (truncateToWidth s maxW).length = maxW := by
  unfold truncateToWidth
  split_ifs with hle
  · omega
  · have hr : truncLoop maxW s 0 = s.take maxW := by
      have := truncLoop_eq_take maxW s 0 (by omega)
      simpa using this
    simp only [hr, List.length_take]
    split_ifs with hlt <;> simp <;> omega

/-- Width of the logo block: the width of its first line
(`lipgloss.Width(efctlLogoLines[0])` in the source). -/
def logoWidth (logo : List (List Char)) : Nat := (logo.head?.getD []).length

/-- One row of the overlay loop: truncate (or blank) the existing content to
`padLeft` columns, splice in the logo row, refill to `innerW`. -/
def overlayLine (innerW logoW : Nat) (line lg : List Char) : List Char :=
  let padLeft := innerW - logoW - 2
  let leftPart :=
    if padLeft ≤ line.length then truncateToWidth line padLeft
    else List.replicate padLeft ' '
  let combined := leftPart ++ lg
  if combined.length < innerW then
    combined ++ List.replicate (innerW - combined.length) ' '
  else combined

/-- `overlayLogo`: place the logo block over the bottom-right rows of the
log panel when both dimensions suffice; otherwise return the input. -/
def overlayLogo (logo : List (List Char)) (logLines : List (List Char))
    (innerW : Nat) : List (List Char) :=
  let logoW := logoWidth logo
  let logoH := logo.length
  if logLines.length < logoH ∨ innerW < logoW + 4 then logLines
  else
    logLines.take (logLines.length - logoH) ++
      ((logLines.drop (logLines.length - logoH)).zip logo).map
        fun p => overlayLine innerW logoW p.1 p.2

theorem overlayLine_length (innerW logoW : Nat) (line lg : List Char)
    (hlg : lg.length = logoW) (hw : logoW + 4 ≤ innerW) :
    (overlayLine innerW logoW line lg).length = innerW := by
  simp only [overlayLine]
  have hpadLeft : 1 ≤ innerW - logoW - 2 := by omega
  have hleft :
      (if innerW - logoW - 2 ≤ line.length then truncateToWidth line (innerW - logoW - 2)
       else List.replicate (innerW - logoW - 2) ' ').length = innerW - logoW - 2 := by
    split_ifs with hc
    · exact truncateToWidth_length line (innerW - logoW - 2) hpadLeft hc
    · simp
  split_ifs with hfits <;> simp_all <;> omega

/-- **C7.** The logo compositor returns the log panel lines unchanged when
there are fewer lines than the logo's height or the inner width is below the
logo's width plus 4; otherwise it keeps the line count, leaves every line
above the logo rows unchanged, and every overlaid line still has visible
width exactly the panel's inner width. -/
theorem overlayLogo_spec (logo logLines : List (List Char)) (innerW : Nat)
    (huniform : ∀ lg ∈ logo, lg.length = logoWidth logo) :
    (logLines.length < logo.length ∨ innerW < logoWidth logo + 4 →
      overlayLogo logo logLines innerW = logLines) ∧
    (¬(logLines.length < logo.length ∨ innerW < logoWidth logo + 4) →
      (overlayLogo logo logLines innerW).length = logLines.length ∧
      (overlayLogo logo logLines innerW).take (logLines.length - logo.length) =
        logLines.take (logLines.length - logo.length) ∧
      ∀ l ∈ (overlayLogo logo logLines innerW).drop (logLines.length - logo.length),
        l.length = innerW) := by
  constructor
  · intro h
    simp only [overlayLogo]
    rw [if_pos h]
  · intro h
    push_neg at h
    obtain ⟨hh, hw⟩ := h
    have hcond : ¬(logLines.length < logo.length ∨ innerW < logoWidth logo + 4) := by
      push_neg
      exact ⟨hh, hw⟩
    have hdroplen : (logLines.drop (logLines.length - logo.length)).length = logo.length := by
      rw [List.length_drop]
      omega
    have hziplen :
        (((logLines.drop (logLines.length - logo.length)).zip logo).map
          fun p => overlayLine innerW (logoWidth logo) p.1 p.2).length = logo.length := by
      rw [List.length_map, List.length_zip, hdroplen]
      simp
    have htakelen : (logLines.take (logLines.length - logo.length)).length =
        logLines.length - logo.length := by
      rw [List.length_take]
      omega
    simp only [overlayLogo, if_neg hcond]
    refine ⟨?_, ?_, ?_⟩
    · rw [List.length_append, htakelen, hziplen]
      omega
    · rw [List.take_append_of_le_length (by omega), List.take_take]
      congr 1
      omega
    · intro l hl
      rw [List.drop_append_eq_append_drop, htakelen] at hl
      simp only [Nat.sub_self, List.drop_zero] at hl
      have : (logLines.take (logLines.length - logo.length)).drop
          (logLines.length - logo.length) = [] := by
        apply List.drop_eq_nil_of_le
        rw [htakelen]
      rw [this, List.nil_append, List.mem_map] at hl
      obtain ⟨⟨line, lg⟩, hmem, hline⟩ := hl
      have hlg : lg ∈ logo := (List.of_mem_zip hmem).2
      subst hline
      exact overlayLine_length innerW (logoWidth logo) line lg
        (huniform lg hlg) hw

/-- Witness for C7: a 2-line, width-2 logo on a panel that is too short is
left unchanged (insufficient-height branch). -/
theorem overlayLogo_spec_witness :
    overlayLogo [['X', 'X'], ['Y', 'Y']] [['a', 'b', 'c']] 12 = [['a', 'b', 'c']] :=
  (overlayLogo_spec [['X', 'X'], ['Y', 'Y']] [['a', 'b', 'c']] 12
    (by decide)).1 (by decide)

/-! ## Snapshot poller (fetchStats and its query helpers)

Each external query is a parameter: `none` models a failed command / HTTP
request / file read.  Successful responses carry the already-decoded JSON
payload (decoding internals of `encoding/json` are not re-modelled; a
response that decoded to nothing useful is e.g. `some ""` or `some none`,
matching the Go zero values).  Strings handled here are ASCII, so Go byte
indexing coincides with character indexing. -/

/-- Go slice `s[:n]` on an ASCII string. -/
def strTake (n : Nat) (s : String) : String := String.mk (s.toList.take n)

/-- Go slice `s[len(s)-n:]` on an ASCII string. -/
def strTakeLast (n : Nat) (s : String) : String :=
  String.mk (s.toList.drop (s.toList.length - n))

/-- `shortKind`: abbreviate common Sui transaction kind names. -/
def shortKind (kind : String) : String :=
  if kind = "ProgrammableTransaction" then "PrgTx"
  else if kind = "ConsensusCommitPrologue" ∨ kind = "ConsensusCommitPrologueV2" ∨
      kind = "ConsensusCommitPrologueV3" then "Consensus"
  else if kind = "AuthenticatorStateUpdate" ∨ kind = "AuthenticatorStateUpdateV2" then
    "AuthState"
  else if kind = "RandomnessStateUpdate" then "Randomness"
  else if kind = "EndOfEpochTransaction" then "EndEpoch"
  else if kind = "ChangeEpoch" then "Epoch"
  else if kind = "Genesis" then "Genesis"
  else if kind.length > 10 then strTake 10 kind
  else kind

/-- The comma-insertion loop of `formatWithCommas`. -/
def addCommas (digits : List Char) : List Char :=
  let k := digits.length
  digits.enum.foldl
    (fun buf p => buf ++ (if 0 < p.1 ∧ (k - p.1) % 3 = 0 then [','] else []) ++ [p.2])
    []

/-- `formatWithCommas`: thousand separators for a decimal numeric string
(non-numeric strings are returned unchanged; the Go 64-bit range check is
not re-modelled). -/
def formatWithCommas (s : String) : String :=
  match s.toInt? with
  | none => s
  | some n =>
    let sign := if n < 0 then "-" else ""
    let m := if n < 0 then -n else n
    sign ++ String.mk (addCommas (toString m).toList)

/-- `formatGas`: net gas (computation + storage - rebate), `-` when
non-positive; unparsable fields count as 0, as in the Go code, which
ignores the `ParseInt` error. -/
def formatGas (computation storage rebate : String) : String :=
  let comp := (computation.toInt?).getD 0
  let stor := (storage.toInt?).getD 0
  let reb := (rebate.toInt?).getD 0
  let total := comp + stor - reb
  if total ≤ 0 then "-" else formatWithCommas (toString total)

/-- One decoded entry of the `suix_queryTransactionBlocks` response. -/
structure RawTx where
  digest : String
  timestampMs : String
  sender : String
  kind : String
  status : String
  computationCost : String
  storageCost : String
  storageRebate : String
  deriving Repr, DecidableEq

/-- The per-transaction display transform of `fetchChainInfo`'s recent-tx
loop; `nowMs` is the current wall clock in milliseconds. -/
def txOfRaw (nowMs : Int) (tx : RawTx) : recentTx :=
  let d :=
    if tx.digest.length > 16 then strTake 8 tx.digest ++ ".." ++ strTakeLast 4 tx.digest
    else tx.digest
  let age :=
    match tx.timestampMs.toInt? with
    | some ms => formatAge ((nowMs - ms) * 1000000)
    | none => "-"
  let status := if tx.status = "" then "?" else tx.status
  let kind := if tx.kind = "" then "tx" else tx.kind
  let sender :=
    if tx.sender.length > 14 then strTake 6 tx.sender ++ ".." ++ strTakeLast 4 tx.sender
    else tx.sender
  ⟨d, status, shortKind kind, age, sender,
    formatGas tx.computationCost tx.storageCost tx.storageRebate⟩

/-- `fetchChainInfo`: starts from the sentinel record
`{Checkpoint: "Offline", TxCount: "-", Epoch: "-"}` and overwrites each
field only when its own RPC call succeeded. -/
def fetchChainInfo (checkpoint txCount : Option String)
    (epoch : Option (Option String)) (recent : Option (List RawTx))
    (nowMs : Int) : chainStat :=
  let cp := match checkpoint with | none => "Offline" | some s => s
  let tc := match txCount with | none => "-" | some s => s
  let ep := match epoch with | none => "-" | some none => "-" | some (some e) => e
  let txs := match recent with | none => [] | some raws => raws.map (txOfRaw nowMs)
  ⟨cp, ep, tc, txs⟩

/-- `parseContainerStats`: all three containers start `Stopped`/`-`/`-`; a
failed `docker stats` command (`none`) leaves them that way, otherwise each
tab-separated row with a known container name flips that entry to Running. -/
def parseContainerStats (out : Option String) :
    containerStat × containerStat × containerStat :=
  let s0 : containerStat := ⟨"Stopped", "-", "-"⟩
  match out with
  | none => (s0, s0, s0)
  | some o =>
    (o.splitOn "\n").foldl
      (fun acc l =>
        match l.splitOn "\t" with
        | p0 :: p1 :: p2 :: _ =>
          let name := p0.trim
          let acc :=
            if name = "sui-playground" then
              (⟨"Running", p1, p2⟩, acc.2.1, acc.2.2)
            else acc
          let acc :=
            if name = "docker-postgres-1" ∨ name = "docker_postgres_1" then
              (acc.1, ⟨"Running", p1, p2⟩, acc.2.2)
            else acc
          let acc :=
            if name = "docker-frontend-1" ∨ name = "docker_frontend_1" then
              (acc.1, acc.2.1, ⟨"Running", p1, p2⟩)
            else acc
          acc
        | _ => acc)
      (s0, s0, s0)

/-- Hexadecimal digit class of the `ADMIN_ADDRESS` regex. -/
def isHexDigit (c : Char) : Bool :=
  ('0' ≤ c ∧ c ≤ '9') ∨ ('a' ≤ c ∧ c ≤ 'f') ∨ ('A' ≤ c ∧ c ≤ 'F')

/-- One line matched against `^ADMIN_ADDRESS=(0x[a-fA-F0-9]+)`. -/
def adminFromLine (l : String) : Option String :=
  if l.startsWith "ADMIN_ADDRESS=0x" then
    let hex := (l.toList.drop 16).takeWhile isHexDigit
    if hex = [] then none else some ("0x" ++ String.mk hex)
  else none

/-- `extractAdmin`: "Unknown" when the `.env` file is unreadable,
"Not Found" when readable but no line matches the regex. -/
def extractAdmin (content : Option String) : String :=
  match content with
  | none => "Unknown"
  | some data =>
    match (data.splitOn "\n").findSome? adminFromLine with
    | some addr => addr
    | none => "Not Found"

/-- Go map assignment `m[k] = v` on an association list. -/
def mapInsert : List (String × String) → String → String → List (String × String)
  | [], k, v => [(k, v)]
  | (k', v') :: rest, k, v =>
    if k' = k then (k, v) :: rest else (k', v') :: mapInsert rest k v

/-- Go `strings.SplitN(line, "=", 2)` restricted to the two-part case. -/
def envLineKV (line : String) : Option (String × String) :=
  let cs := line.toList
  if cs.contains '=' then
    some (String.mk (cs.takeWhile (fun c => c ≠ '=')),
      String.mk ((cs.dropWhile (fun c => c ≠ '=')).drop 1))
  else none

/-- `extractEnvVars`: `key=value` pairs of the world-contracts `.env` file;
comments and blank lines are skipped and empty values are excluded. -/
def extractEnvVars (content : Option String) : List (String × String) :=
  match content with
  | none => []
  | some data =>
    (data.splitOn "\n").foldl
      (fun result rawLine =>
        let line := rawLine.trim
        if line = "" ∨ line.startsWith "#" then result
        else
          match envLineKV line with
          | some (k, v) => if v ≠ "" then mapInsert result k v else result
          | none => result)
      []

/-- `extractWorldObjects`: the string entries of the manifest's `world`
object (`none` models an unreadable or unparsable manifest), with the
distinguished `packageId` key split out. -/
def extractWorldObjects (world : Option (List (String × String))) :
    List (String × String) × String :=
  match world with
  | none => ([], "")
  | some kvs =>
    (kvs.filter (fun p => p.1 ≠ "packageId"), (kvs.lookup "packageId").getD "")

/-- `buildAddresses`: the role-to-address map; `deriveAddr` is the injected
`sui keytool` derivation, returning `""` on failure. -/
def buildAddresses (admin : String) (envVars : List (String × String))
    (deriveAddr : String → String) : List (String × String) :=
  (if admin ≠ "" ∧ admin ≠ "Unknown" ∧ admin ≠ "Not Found" then
    [("Admin", admin)] else []) ++
  (match envVars.lookup "SPONSOR_ADDRESS" with
    | some v => [("Sponsor", v)]
    | none => []) ++
  (match envVars.lookup "PLAYER_A_PRIVATE_KEY" with
    | some pk => if deriveAddr pk ≠ "" then [("Player A", deriveAddr pk)] else []
    | none => []) ++
  (match envVars.lookup "PLAYER_B_PRIVATE_KEY" with
    | some pk => if deriveAddr pk ≠ "" then [("Player B", deriveAddr pk)] else []
    | none => [])

/-- One decoded entry of the `suix_queryEvents` response. -/
structure RawEvent where
  packageId : String
  txModule : String
  sender : String
  evType : String
  timestampMs : String
  parsedJson : List (String × String)
  deriving Repr, DecidableEq

/-- The event-type display name: text after the last `::`, cut at the first
`<` (generic parameters dropped). -/
def eventTypeName (t : String) : String :=
  let afterLast := ((t.splitOn "::").getLast?).getD t
  ((afterLast.splitOn "<").head?).getD afterLast

/-- `fetchWorldEvents`: the decoded event list filtered to the world
package and mapped to display rows. -/
def fetchWorldEvents (resp : Option (List RawEvent)) (pkgID : String)
    (nowMs : Int) : List worldEvent :=
  match resp with
  | none => []
  | some data =>
    data.filterMap fun ev =>
      if ev.packageId ≠ pkgID then none
      else
        let age :=
          match ev.timestampMs.toInt? with
          | some ms => formatAge ((nowMs - ms) * 1000000)
          | none => "-"
        let sender :=
          if ev.sender.length > 14 then
            strTake 6 ev.sender ++ ".." ++ strTakeLast 4 ev.sender
          else ev.sender
        some ⟨eventTypeName ev.evType, ev.txModule, sender, age, ev.parsedJson⟩

/-- The external world of one polling tick: each field is one independently
fallible query of `fetchStats`. -/
structure World where
  statsOut : Option String
  checkpoint : Option String
  txCount : Option String
  epoch : Option (Option String)
  recent : Option (List RawTx)
  worldJson : Option (List (String × String))
  envFile : Option String
  eventsResp : Option (List RawEvent)
  deriveAddr : String → String
  nowMs : Int

/-- `fetchStats`: one polling tick, producing the snapshot message. -/
def fetchStats (w : World) : StatsMsg :=
  let cs := parseContainerStats w.statsOut
  let chain := fetchChainInfo w.checkpoint w.txCount w.epoch w.recent w.nowMs
  let wo := extractWorldObjects w.worldJson
  let admin := extractAdmin w.envFile
  let envVars := extractEnvVars w.envFile
  let addresses := buildAddresses admin envVars w.deriveAddr
  let events :=
    if wo.2 ≠ "" ∧ admin ≠ "" ∧ admin ≠ "Unknown" ∧ admin ≠ "Not Found" then
      fetchWorldEvents w.eventsResp wo.2 w.nowMs
    else []
  { Sui := cs.1, Pg := cs.2.1, Fe := cs.2.2, Chain := chain, Objects := [],
    Admin := admin, EnvVars := envVars, WorldObjs := wo.1,
    Addresses := addresses, WorldPkgID := wo.2, Events := events }

/-- The tick on which every external query fails. -/
def allFailingWorld : World :=
  { statsOut := none, checkpoint := none, txCount := none, epoch := none,
    recent := none, worldJson := none, envFile := none, eventsResp := none,
    deriveAddr := fun _ => "", nowMs := 0 }

/-- The fully-populated sentinel snapshot. -/
def sentinelSnapshot : StatsMsg :=
  { Sui := ⟨"Stopped", "-", "-"⟩
    Pg := ⟨"Stopped", "-", "-"⟩
    Fe := ⟨"Stopped", "-", "-"⟩
    Chain := ⟨"Offline", "-", "-", []⟩
    Objects := []
    Admin := "Unknown"
    EnvVars := []
    WorldObjs := []
    Addresses := []
    WorldPkgID := ""
    Events := [] }

/-! ## The frame renderer (model.View and its helpers,
cmd/env_dash.go lines 2229-2598)

The renderer is embedded down to every Go slice and index expression,
which are the error (panic) vectors of `View`: each `xs[i]` is a fallible
`xs[i]?` access and each `xs[a:b]` a guarded `goSlice`, sequenced in the
`Option` monad, so `View` returns `some frame` exactly when the Go
renderer finishes without error.  The two `lipgloss` wrapping primitives
(`renderToLines`'s `Padding(0,1).Width(w).Render` and the header bar's
`headerStyle.Width(w).Render`) are third-party and taken as function
parameters `lip` and `headerRender`; no property of them is needed for
error-freedom, since every wrapped block goes through `padLines`, whose
output shape is unconditional.  Styled text renders as its visible
characters, as everywhere in this file. -/

/-- Go `fmt` `%-ns` left-justified padding (ASCII). -/
def padRightStr (s : String) (n : Nat) : String :=
  s ++ String.mk (List.replicate (n - s.length) ' ')

/-- Go `fmt` `%ns` right-justified padding (ASCII). -/
def padLeftStr (s : String) (n : Nat) : String :=
  String.mk (List.replicate (n - s.length) ' ') ++ s

/-- The camelCase splitter loop of `humanizeCamelCase` (split before every
ASCII uppercase letter, never before the first character). -/
def camelWords (acc : List Char) : List Char → List (List Char)
  | [] => [acc.reverse]
  | c :: rest =>
    if 'A' ≤ c ∧ c ≤ 'Z' then acc.reverse :: camelWords [c] rest
    else camelWords (c :: acc) rest

/-- Go `strings.ToUpper(w[:1]) + w[1:]` for an ASCII word. -/
def capitalizeWord (w : List Char) : List Char :=
  match w with
  | [] => []
  | c :: rest => c.toUpper :: rest

/-- `humanizeCamelCase`: "governorCap" becomes "Governor Cap". -/
def humanizeCamelCase (s : String) : String :=
  match s.toList with
  | [] => ""
  | c :: rest =>
    String.intercalate " " ((camelWords [c] rest).map fun w => String.mk (capitalizeWord w))

/-- `colorizeLogLine`: colour is applied to recognised prefixes; on visible
characters each branch re-assembles the original line. -/
def colorizeLogLine (line : String) : String :=
  if line.startsWith "[docker]" then "[docker]" ++ String.mk (line.toList.drop 8)
  else if line.startsWith "[db]" then "[db]" ++ String.mk (line.toList.drop 4)
  else if line.startsWith "[deploy]" then "[deploy]" ++ String.mk (line.toList.drop 8)
  else if line.startsWith "[frontend]" then "[frontend]" ++ String.mk (line.toList.drop 10)
  else line

/-- `model.hexShortener`: abbreviate long hex values; the Go slices
`s[:10]`, `s[len(s)-4:]` and `s[:maxVal-1]` are guarded by the enclosing
conditions (`len(s) > 16`, `len(s) > maxVal >= 10`), so they cannot fail. -/
def hexShortener (m : Model) : String → String :=
  let maxVal := Int.tdiv (m.width - 3) 2 - 20
  let maxVal := if maxVal < 10 then 10 else maxVal
  fun s =>
    if (s.length : Int) ≤ maxVal then s
    else if s.startsWith "0x" ∧ s.length > 16 then
      strTake 10 s ++ "…" ++ strTakeLast 4 s
    else strTake (maxVal - 1).toNat s ++ "…"

/-- One service row of `renderContainerContent` (the dot's colour branch
selects only a colour, invisible here). -/
def containerRowStr (name : String) (stat : containerStat) : String :=
  " " ++ "●" ++ " " ++ padRightStr name 18 ++ " " ++ "CPU" ++ " " ++
    padRightStr stat.CPU 7 ++ "  " ++ "Mem" ++ " " ++ stat.Mem ++ "\n"

/-- `model.renderContainerContent`. -/
def renderContainerContent (m : Model) : String :=
  "\n" ++ containerRowStr "sui-playground" m.suiStat ++
    containerRowStr "database" m.pgStat ++
    (if m.frontendOn then containerRowStr "frontend" m.feStat else "") ++ "\n"

/-- `model.writeEnvConfig`. -/
def writeEnvConfig (m : Model) (shorten : String → String) : String :=
  let network := (m.envVars.lookup "SUI_NETWORK").getD "localnet"
  " " ++ "Network:" ++ " " ++ network ++
    "   " ++ "RPC:" ++ " " ++ "http://localhost:9000" ++
    (match m.envVars.lookup "TENANT" with
      | some v => "   " ++ "Tenant:" ++ " " ++ v
      | none => "") ++ "\n" ++
    (if m.worldPkgID ≠ "" then
      " " ++ "World Pkg:" ++ " " ++ shorten m.worldPkgID ++ "\n"
    else "") ++
    (if m.frontendOn then
      " " ++ "Frontend:" ++ " " ++ "http://localhost:5173" ++ "\n"
    else "")

/-- `model.writeEnvAddresses`. -/
def writeEnvAddresses (m : Model) (shorten : String → String) : String :=
  if m.addresses.isEmpty then ""
  else
    "\n " ++ "Addresses" ++ "\n" ++
      String.join ((["Admin", "Sponsor", "Player A", "Player B"]).map fun role =>
        match m.addresses.lookup role with
        | some addr => "  " ++ padRightStr role 10 ++ " " ++ shorten addr ++ "\n"
        | none => "")

/-- `model.writeEnvObjects` (the residual Go map iteration is determinised
to the association list's order). -/
def writeEnvObjects (m : Model) (shorten : String → String) : String :=
  if m.worldObjs.isEmpty then ""
  else
    let knownKeys := ["governorCap", "adminAcl", "objectRegistry",
      "serverAddressRegistry", "energyConfig", "fuelConfig", "gateConfig"]
    "\n " ++ "Objects" ++ " (" ++ toString m.worldObjs.length ++ ")" ++ "\n" ++
      String.join (knownKeys.map fun key =>
        match m.worldObjs.lookup key with
        | some v =>
            "  " ++ padRightStr (humanizeCamelCase key) 22 ++ " " ++ shorten v ++ "\n"
        | none => "") ++
      String.join ((m.worldObjs.filter fun p => ¬ knownKeys.contains p.1).map fun p =>
        "  " ++ padRightStr (humanizeCamelCase p.1) 22 ++ " " ++ shorten p.2 ++ "\n")

/-- `model.renderEnvContent`. -/
def renderEnvContent (m : Model) : String :=
  let shorten := hexShortener m
  "\n" ++ writeEnvConfig m shorten ++ writeEnvAddresses m shorten ++
    writeEnvObjects m shorten

/-- The header title of `model.renderHeader`; `uptime` is the externally
formatted wall-clock uptime. -/
def renderHeaderTitle (m : Model) (uptime : String) : String :=
  let suiUp := if m.suiStat.Status ≠ "Running" then "DOWN" else "UP"
  let dbUp := if m.pgStat.Status ≠ "Running" then "DOWN" else "UP"
  let gqlStatus := if m.graphqlOn then "gql:ON" else "gql:OFF"
  let feStatus := if m.frontendOn then "fe:ON" else "fe:OFF"
  " efctl dashboard │ sui:" ++ suiUp ++ "  db:" ++ dbUp ++ "  " ++ gqlStatus ++
    "  " ++ feStatus ++ " │ Uptime: " ++ uptime ++ " "

/-- `model.renderHeader`: pad the title to the terminal width and hand it to
the third-party header style renderer. -/
def renderHeader (headerRender : String → Nat → List (List Char)) (m : Model)
    (uptime : String) : List (List Char) :=
  let headerTitle := renderHeaderTitle m uptime
  let padLen := m.width - (headerTitle.length : Int)
  let padLen := if padLen < 0 then 0 else padLen
  headerRender (headerTitle ++ String.mk (List.replicate padLen.toNat ' ')) m.width.toNat

/-- `model.panelWidths`. -/
def panelWidths (m : Model) : Int × Int × Int :=
  let leftInner := max (Int.tdiv (m.width - 3) 2) 1
  let rightInner := max (m.width - 3 - leftInner) 1
  let logInner := max (m.width - 2) 1
  (leftInner, rightInner, logInner)

/-- A Go for-loop whose body can fail: run `f` on each element in order,
collecting the results, failing as soon as one iteration fails. -/
def optionMapM (f : α → Option β) : List α → Option (List β)
  | [] => some []
  | a :: t => do
    let b ← f a
    let bs ← optionMapM f t
    pure (b :: bs)

/-- The status glyph of a recent-transaction row. -/
def txStatusIcon (status : String) : String :=
  if status = "success" then " ✓" else if status = "failure" then " ✗" else " ?"

/-- One row of the recent-transactions table. -/
def txRowStr (tx : recentTx) : String :=
  "  " ++ txStatusIcon tx.Status ++ " " ++ padRightStr tx.Sender 14 ++ "  " ++
    padRightStr tx.Kind 10 ++ " " ++ padLeftStr tx.GasUsed 9 ++ " " ++
    padLeftStr tx.Age 5 ++ "\n"

/-- `model.renderRightContent`; the loop index `m.recentTxs[i]` is the only
fallible operation. -/
def renderRightContent (m : Model) (topRows : Int) : Option String := do
  let availForTx := topRows - 3 - 3
  let txBlock ←
    if availForTx > 0 ∧ m.recentTxs ≠ [] then do
      let showCount :=
        if availForTx > (m.recentTxs.length : Int) then (m.recentTxs.length : Int)
        else availForTx
      let rows ← optionMapM (fun i => do
        let tx ← m.recentTxs[i]?
        pure (txRowStr tx)) (List.range showCount.toNat)
      pure ("\n " ++ "Recent Transactions" ++ "\n" ++
        "  ST  SENDER          TYPE        GAS       AGE" ++ "\n" ++
        String.join rows)
    else pure ""
  pure ("\n" ++ " " ++ "Checkpoint:" ++ " " ++ formatWithCommas m.chainInfo.Checkpoint ++
    "     " ++ "Epoch:" ++ " " ++ m.chainInfo.Epoch ++ "\n" ++
    " " ++ "Transactions:" ++ " " ++ formatWithCommas m.chainInfo.TxCount ++ "\n" ++
    txBlock)

/-- One row of the world-events table. -/
def eventRowStr (wide : Bool) (ev : worldEvent) : String :=
  if wide then
    "  " ++ padRightStr ev.EventType 28 ++ "  " ++ padRightStr ev.Module 20 ++
      "  " ++ padRightStr ev.Sender 14 ++ "  " ++ padLeftStr ev.Age 5 ++ "\n"
  else
    "  " ++ padRightStr ev.EventType 24 ++ "  " ++ padRightStr ev.Module 14 ++
      "  " ++ padLeftStr ev.Age 5 ++ "\n"

/-- `model.renderEventsContent`; the loop index `m.worldEvents[i]` is the
only fallible operation. -/
def renderEventsContent (m : Model) (maxRows panelW : Int) : Option String := do
  let wide := panelW ≥ 70
  let headerLine :=
    if wide then
      "  EVENT                        MODULE                SENDER          AGE" ++ "\n"
    else "  EVENT                    MODULE          AGE" ++ "\n"
  let showCount :=
    if maxRows - 2 > (m.worldEvents.length : Int) then (m.worldEvents.length : Int)
    else maxRows - 2
  let rows ← optionMapM (fun i => do
    let ev ← m.worldEvents[i]?
    pure (eventRowStr wide ev)) (List.range showCount.toNat)
  pure ("\n" ++ headerLine ++ String.join rows)

/-- Go slice `l[a:b]`: fails (panics) unless `0 <= a <= b <= len l`. -/
def goSlice (l : List α) (a b : Int) : Option (List α) :=
  if 0 ≤ a ∧ a ≤ b ∧ b ≤ (l.length : Int) then
    some ((l.take b.toNat).drop a.toNat)
  else none

/-- `model.renderBottomPanels`: events panel (when present), the visible
log-window slice `m.logs[startIdx:endIdx]`, and the logo overlay, whose
`efctlLogoLines[0]` read is the fallible `logo.head?`. -/
def renderBottomPanels (lip : String → Nat → List (List Char))
    (logo : List (List Char)) (m : Model) (hasEvents : Bool)
    (botRows leftInner rightInner logInner : Int) :
    Option (Int × List (List Char) × List (List Char)) := do
  let (eventLines, logW) ←
    if hasEvents then do
      let ec ← renderEventsContent m botRows leftInner
      pure (padLines (lip ec leftInner.toNat) botRows.toNat leftInner.toNat, rightInner)
    else pure (([] : List (List Char)), logInner)
  let endIdx := (m.logs.length : Int) - m.logScroll
  let endIdx := if endIdx < 0 then 0 else endIdx
  let startIdx := endIdx - botRows
  let startIdx := if startIdx < 0 then 0 else startIdx
  let visibleLogs ← goSlice m.logs startIdx endIdx
  let coloredLogs := visibleLogs.map colorizeLogLine
  let logLines :=
    padLines (lip (String.intercalate "\n" coloredLogs) logW.toNat) botRows.toNat logW.toNat
  let _ ← logo.head?
  let logLines := overlayLogo logo logLines logW.toNat
  pure (logW, logLines, eventLines)

/-- `model.writeTopSection`: the Services/Environment and Chain rows, every
`containerLines[i]`, `envLines[i]`, `rightLines[rightIdx]` a fallible
access. -/
def writeTopSection (leftInner rightInner containerRows envRows : Int)
    (containerLines envLines rightLines : List (List Char)) :
    Option (List (List Char)) := do
  let contRows ← optionMapM (fun i => do
    let c ← containerLines[i]?
    let r ← rightLines[i]?
    pure (['│'] ++ c ++ ['│'] ++ r ++ ['│'])) (List.range containerRows.toNat)
  let rMid ← rightLines[containerRows.toNat]?
  let envRowsOut ← optionMapM (fun i => do
    let e ← envLines[i]?
    let r ← rightLines[containerRows.toNat + 1 + i]?
    pure (['│'] ++ e ++ ['│'] ++ r ++ ['│'])) (List.range envRows.toNat)
  pure ([buildTopBorder leftInner rightInner "Services".toList "Chain".toList] ++
    contRows ++
    [buildLeftMidBorder leftInner "Environment".toList ++ rMid ++ ['│']] ++
    envRowsOut)

/-- `model.writeBottomSection`: the Events+Logs (split) or Logs rows and the
footer, every `eventLines[i]` and `logLines[i]` a fallible access. -/
def writeBottomSection (m : Model) (hasEvents : Bool)
    (botRows leftInner rightInner logW : Int)
    (logLines eventLines : List (List Char)) : Option (List (List Char)) := do
  let logTitle :=
    if m.logScroll > 0 then "Logs ‖ PAUSED (↑" ++ toString m.logScroll ++ " lines)"
    else "Logs ● LIVE"
  let body ←
    if hasEvents then do
      let eventsTitle := "World Events (" ++ toString m.worldEvents.length ++ ")"
      let logTitle :=
        if m.logScroll > 0 then "Logs ‖ PAUSED (↑" ++ toString m.logScroll ++ ")"
        else logTitle
      let rows ← optionMapM (fun i => do
        let e ← eventLines[i]?
        let l ← logLines[i]?
        pure (['│'] ++ e ++ ['│'] ++ l ++ ['│'])) (List.range botRows.toNat)
      pure (buildSplitMiddleBorder leftInner rightInner eventsTitle.toList
        logTitle.toList :: rows)
    else do
      let rows ← optionMapM (fun i => do
        let l ← logLines[i]?
        pure (['│'] ++ l ++ ['│'])) (List.range botRows.toNat)
      pure (buildMiddleBorder m.width leftInner logTitle.toList :: rows)
  let footerKeys :=
    if m.graphqlOn = false ∨ m.frontendOn = false then
      "[r] restart  [d] env down" ++
        (if m.graphqlOn = false then "  [g] enable graphql" else "") ++
        (if m.frontendOn = false then "  [f] enable frontend" else "") ++
        "  [↑↓/PgUp/PgDn] scroll  [Home/End] jump  [q] quit"
    else
      "[r] restart  [d] env down  [↑↓/PgUp/PgDn] scroll  [Home/End] jump  [q] quit"
  let last :=
    if hasEvents then buildBottomBorderWithJunction m.width leftInner footerKeys.toList
    else buildBottomBorder m.width footerKeys.toList
  pure (body ++ [last])

/-- `model.View`: the whole frame as a list of rows (`none` models a Go
panic in any of the embedded index or slice expressions). -/
def view (lip headerRender : String → Nat → List (List Char))
    (logo : List (List Char)) (uptime : String) (m : Model) :
    Option (List (List Char)) :=
  if m.width = 0 then some ["Initializing...".toList]
  else do
    let header := renderHeader headerRender m uptime
    let headerH : Int := header.length
    let pw := panelWidths m
    let leftInner := pw.1
    let rightInner := pw.2.1
    let logInner := pw.2.2
    let hasEvents := !m.worldEvents.isEmpty
    let available := m.height - headerH
    let containerRows : Int := 4
    let topRows := max (Int.tdiv (available * 30) 100) 8
    let envRows := max (topRows - containerRows - 1) 3
    let rightRows := containerRows + envRows + 1
    let botRows := max (available - topRows - 3) 3
    let containerLines :=
      padLines (lip (renderContainerContent m) leftInner.toNat)
        containerRows.toNat leftInner.toNat
    let envLines :=
      padLines (lip (renderEnvContent m) leftInner.toNat) envRows.toNat leftInner.toNat
    let rightContent ← renderRightContent m rightRows
    let rightLines :=
      padLines (lip rightContent rightInner.toNat) rightRows.toNat rightInner.toNat
    let bp ← renderBottomPanels lip logo m hasEvents botRows leftInner rightInner logInner
    let top ← writeTopSection leftInner rightInner containerRows envRows
      containerLines envLines rightLines
    let bottom ← writeBottomSection m hasEvents botRows leftInner rightInner
      bp.1 bp.2.1 bp.2.2
    pure (header ++ top ++ bottom)

theorem isSome_bind_of {o : Option α} {f : α → Option β} (h : o.isSome)
    (hf : ∀ a, (f a).isSome) : (o >>= fun a => f a).isSome := by
  obtain ⟨a, ha⟩ := Option.isSome_iff_exists.mp h
  rw [ha]
  exact hf a

theorem isSome_bind_of2 {o : Option α} {f : α → Option β} {p : α → Prop}
    (h1 : ∀ a, p a → (f a).isSome)
    (h2 : ∃ a, o = some a ∧ p a) : (o >>= fun a => f a).isSome := by
  obtain ⟨a, ha, hp⟩ := h2
  rw [ha]
  exact h1 a hp

theorem optionMapM_isSome {f : α → Option β} :
    ∀ {l : List α}, (∀ a ∈ l, (f a).isSome) → (optionMapM f l).isSome := by
  intro l
  induction l with
  | nil => intro _; rfl
  | cons a t ih =>
    intro h
    obtain ⟨b, hb⟩ := Option.isSome_iff_exists.mp (h a (List.mem_cons_self a t))
    obtain ⟨bs, hbs⟩ :=
      Option.isSome_iff_exists.mp (ih fun x hx => h x (List.mem_cons_of_mem a hx))
    simp [optionMapM, hb, hbs]

theorem getElem?_isSome_of_lt {l : List α} {i : Nat} (h : i < l.length) :
    (l[i]?).isSome := by
  rw [List.getElem?_eq_getElem h]
  rfl

theorem padLines_length (lines : List (List Char)) (t w : Nat) :
    (padLines lines t w).length = t := by
  simp only [padLines, List.length_map, List.length_append,
    List.length_replicate, List.length_take]
  omega

theorem overlayLogo_length (logo lines : List (List Char)) (w : Nat) :
    (overlayLogo logo lines w).length = lines.length := by
  simp only [overlayLogo]
  split_ifs with h
  · rfl
  · push_neg at h
    rw [List.length_append, List.length_map, List.length_zip,
      List.length_take, List.length_drop]
    omega

theorem renderRightContent_isSome (m : Model) (topRows : Int) :
    (renderRightContent m topRows).isSome := by
  simp only [renderRightContent]
  split_ifs with h h2
  · apply isSome_bind_of
    · apply optionMapM_isSome
      intro i hi
      have hi' := List.mem_range.mp hi
      apply isSome_bind_of
      · apply getElem?_isSome_of_lt
        omega
      · intro tx
        rfl
    · intro rows
      rfl
  · apply isSome_bind_of
    · apply optionMapM_isSome
      intro i hi
      have hi' := List.mem_range.mp hi
      apply isSome_bind_of
      · apply getElem?_isSome_of_lt
        omega
      · intro tx
        rfl
    · intro rows
      rfl
  · rfl

theorem renderEventsContent_isSome (m : Model) (maxRows panelW : Int) :
    (renderEventsContent m maxRows panelW).isSome := by
  simp only [renderEventsContent]
  apply isSome_bind_of
  · apply optionMapM_isSome
    intro i hi
    have hi' := List.mem_range.mp hi
    apply isSome_bind_of
    · apply getElem?_isSome_of_lt
      split_ifs at hi' <;> omega
    · intro ev
      rfl
  · intro rows
    rfl

theorem goSlice_isSome (l : List α) (a b : Int)
    (h : 0 ≤ a ∧ a ≤ b ∧ b ≤ (l.length : Int)) : (goSlice l a b).isSome := by
  unfold goSlice
  rw [if_pos h]
  rfl

theorem renderBottomPanels_eq (lip : String → Nat → List (List Char))
    (logo : List (List Char)) (m : Model) (hasEvents : Bool)
    (botRows leftInner rightInner logInner : Int)
    (hlogo : logo ≠ []) (hs : 0 ≤ m.logScroll) (hb : 0 ≤ botRows) :
    ∃ r, renderBottomPanels lip logo m hasEvents botRows leftInner rightInner logInner
        = some r ∧
      r.2.1.length = botRows.toNat ∧
      (hasEvents = true → r.2.2.length = botRows.toNat) := by
  have hhead : ∃ h0, logo.head? = some h0 := by
    cases logo with
    | nil => exact absurd rfl hlogo
    | cons a t => exact ⟨a, rfl⟩
  obtain ⟨h0, hh0⟩ := hhead
  have hslice : (goSlice m.logs
      (if (if (m.logs.length : Int) - m.logScroll < 0 then 0
            else (m.logs.length : Int) - m.logScroll) - botRows < 0 then 0
       else (if (m.logs.length : Int) - m.logScroll < 0 then 0
            else (m.logs.length : Int) - m.logScroll) - botRows)
      (if (m.logs.length : Int) - m.logScroll < 0 then 0
        else (m.logs.length : Int) - m.logScroll)).isSome := by
    apply goSlice_isSome
    split_ifs <;> omega
  obtain ⟨vis, hvis⟩ := Option.isSome_iff_exists.mp hslice
  cases hasEvents with
  | false =>
    refine ⟨(logInner,
      overlayLogo logo
        (padLines (lip (String.intercalate "\n" (vis.map colorizeLogLine)) logInner.toNat)
          botRows.toNat logInner.toNat) logInner.toNat,
      []), ?_, ?_, ?_⟩
    · simp only [renderBottomPanels, Bool.false_eq_true, if_false, hvis, hh0,
        Option.some_bind]
      rfl
    · rw [overlayLogo_length, padLines_length]
    · intro h
      exact absurd h (by simp)
  | true =>
    obtain ⟨ec, hec⟩ :=
      Option.isSome_iff_exists.mp (renderEventsContent_isSome m botRows leftInner)
    refine ⟨(rightInner,
      overlayLogo logo
        (padLines (lip (String.intercalate "\n" (vis.map colorizeLogLine)) rightInner.toNat)
          botRows.toNat rightInner.toNat) rightInner.toNat,
      padLines (lip ec leftInner.toNat) botRows.toNat leftInner.toNat), ?_, ?_, ?_⟩
    · simp only [renderBottomPanels, if_true, hec, hvis, hh0, Option.some_bind]
      rfl
    · rw [overlayLogo_length, padLines_length]
    · intro _
      rw [padLines_length]

theorem writeTopSection_isSome (leftInner rightInner containerRows envRows : Int)
    (cl el rl : List (List Char))
    (hc : containerRows.toNat ≤ cl.length)
    (he : envRows.toNat ≤ el.length)
    (hr : containerRows.toNat + envRows.toNat + 1 ≤ rl.length) :
    (writeTopSection leftInner rightInner containerRows envRows cl el rl).isSome := by
  simp only [writeTopSection]
  apply isSome_bind_of
  · apply optionMapM_isSome
    intro i hi
    have hi' := List.mem_range.mp hi
    apply isSome_bind_of
    · exact getElem?_isSome_of_lt (by omega)
    · intro c
      apply isSome_bind_of
      · exact getElem?_isSome_of_lt (by omega)
      · intro r
        rfl
  · intro contRows
    apply isSome_bind_of
    · exact getElem?_isSome_of_lt (by omega)
    · intro rMid
      apply isSome_bind_of
      · apply optionMapM_isSome
        intro i hi
        have hi' := List.mem_range.mp hi
        apply isSome_bind_of
        · exact getElem?_isSome_of_lt (by omega)
        · intro e
          apply isSome_bind_of
          · exact getElem?_isSome_of_lt (by omega)
          · intro r
            rfl
      · intro envRowsOut
        rfl

theorem writeBottomSection_isSome (m : Model) (hasEvents : Bool)
    (botRows leftInner rightInner logW : Int)
    (logLines eventLines : List (List Char))
    (hl : botRows.toNat ≤ logLines.length)
    (he : hasEvents = true → botRows.toNat ≤ eventLines.length) :
    (writeBottomSection m hasEvents botRows leftInner rightInner logW
      logLines eventLines).isSome := by
  simp only [writeBottomSection]
  cases hasEvents with
  | false =>
    simp only [Bool.false_eq_true, if_false]
    apply isSome_bind_of
    · apply optionMapM_isSome
      intro i hi
      have hi' := List.mem_range.mp hi
      apply isSome_bind_of
      · exact getElem?_isSome_of_lt (by omega)
      · intro l
        rfl
    · intro rows
      rfl
  | true =>
    simp only [if_true]
    apply isSome_bind_of
    · apply optionMapM_isSome
      intro i hi
      have hi' := List.mem_range.mp hi
      have hee := he rfl
      apply isSome_bind_of
      · exact getElem?_isSome_of_lt (by omega)
      · intro e
        apply isSome_bind_of
        · exact getElem?_isSome_of_lt (by omega)
        · intro l
          rfl
    · intro rows
      rfl

/-- Error-freedom of the whole frame renderer: for any model whose scroll
offset is non-negative (the C3 invariant) and the non-empty logo block,
every embedded index and slice of `View` is in bounds. -/
theorem view_isSome (lip headerRender : String → Nat → List (List Char))
    (logo : List (List Char)) (uptime : String) (m : Model)
    (hlogo : logo ≠ []) (hs : 0 ≤ m.logScroll) :
    (view lip headerRender logo uptime m).isSome := by
  simp only [view]
  split_ifs with hw
  · rfl
  · apply isSome_bind_of
    · exact renderRightContent_isSome m _
    · intro rightContent
      refine isSome_bind_of2 ?_
        (renderBottomPanels_eq lip logo m _ _ _ _ _ hlogo hs (by omega))
      intro bp hbp
      obtain ⟨hlen1, hlen2⟩ := hbp
      apply isSome_bind_of
      · apply writeTopSection_isSome <;> rw [padLines_length] <;> omega
      · intro top
        apply isSome_bind_of
        · apply writeBottomSection_isSome
          · exact le_of_eq hlen1.symm
          · intro hev
            exact le_of_eq (hlen2 hev).symm
        · intro bottom
          rfl

/-- **C6.** When every external query of a polling tick fails, the produced
snapshot is still fully populated with sentinel values rather than absent
fields — container statuses "Stopped" with CPU and memory "-", chain
checkpoint "Offline" with transaction count "-" and epoch "-", and admin
address "Unknown" — and rendering such a snapshot produces a frame without
error: applied to any dashboard model (with the non-negative scroll offset
the model maintains and the fixed non-empty logo block), the fully embedded
`View` pipeline returns a frame, with every index and slice in bounds. -/
theorem snapshot_all_failing_sentinels :
    fetchStats allFailingWorld = sentinelSnapshot ∧
    ∀ (lip headerRender : String → Nat → List (List Char))
      (logo : List (List Char)) (uptime : String) (m : Model) (o : Option String),
      logo ≠ [] → 0 ≤ m.logScroll →
      (view lip headerRender logo uptime
        (applyStats m (fetchStats allFailingWorld) o)).isSome := by
  constructor
  · rfl
  · intro lip headerRender logo uptime m o hlogo hs
    exact view_isSome lip headerRender logo uptime _ hlogo hs

/-- A small concrete terminal for the C6 witness. -/
def demoModelSmall : Model :=
  { demoModel with width := 7, height := 5 }

set_option maxHeartbeats 1000000 in
/-- Witness for C6: rendering the all-failing snapshot applied to a small
concrete model, with a concrete wrapper and logo, yields a frame. -/
theorem snapshot_all_failing_sentinels_witness :
    (view (fun s w => (s.splitOn "\n").map fun l => l.toList.take w)
      (fun s w => [s.toList.take w]) [['X']] "0s"
      (applyStats demoModelSmall (fetchStats allFailingWorld) none)).isSome :=
  by
  apply snapshot_all_failing_sentinels.2
  · decide
  · decide

end Efctl
